import Mathlib

/-!
# Verification of the go-pedalboard effect-processing core

Shallow embedding of `src/cpp/src/pedalboard.cpp`.  Samples and
parameter values are modelled as exact rationals (`ℚ`); C `int`
values are modelled as `ℤ`.  Each built-in effect's stored parameter
state is a structure whose fields mirror the C++ data members, and the
per-effect `setParam` / `getParam` / `getNumParams` functions are
direct translations of the corresponding member functions.
-/

set_option autoImplicit false

namespace Pedalboard

/-- A deinterleaved (channel-major) sample buffer: one list of samples
per channel.  Mirrors the `float** samples` view used by
`pedalboard_processor_process`. -/
abbrev AudioBuf := List (List ℚ)

/-- `mapRange` from pedalboard.cpp: linear map of a normalized control
value onto `[min, max]`. -/
def mapRange (input min max : ℚ) : ℚ :=
  min + input * (max - min)

/-! ## Per-effect parameter state

Each structure lists exactly the data members of the C++ class that are
observable through `setParam` / `getParam`, with the field initializers
of the C++ class as defaults. -/

/-- Modelled from the spec: `juce::dsp::Gain` is an external JUCE DSP
unit; its `setGainLinear` / `getGainLinear` pair stores and returns the
target linear gain value (the ~50 ms ramp affects only sample
processing, not the stored value). -/
structure DspGain where
  gainLinear : ℚ := 1
deriving DecidableEq

/-- `GainProcessor`: owns a `juce::dsp::Gain`. -/
structure GainState where
  gain : DspGain := {}
deriving DecidableEq

/-- `juce::Reverb::Parameters` as set by `ReverbProcessor`'s
constructor (width keeps the JUCE default of 1). -/
structure ReverbParams where
  roomSize : ℚ := 1/2
  damping : ℚ := 1/2
  wetLevel : ℚ := 33/100
  dryLevel : ℚ := 2/5
  width : ℚ := 1
deriving DecidableEq

structure ReverbState where
  params : ReverbParams := {}
deriving DecidableEq

/-- `DelayProcessor` state.  `delaySamples` is the delay configured on
the `juce::dsp::DelayLine` by `updateDelay` (0 until first set);
`hists` models the delay line's per-channel memory as the list of
previously pushed samples, most recent first (modelled from the spec:
"per-channel ring buffer read with the configured delay"). -/
structure DelayState where
  timeParam : ℚ := 1/4
  feedback : ℚ := 1/2
  mix : ℚ := 1/2
  sampleRate : ℚ := 44100
  delaySamples : ℚ := 0
  hists : List (List ℚ) := []
deriving DecidableEq

structure DistortionState where
  drive : ℚ := 1/2
deriving DecidableEq

structure ClippingState where
  threshold : ℚ := 1
deriving DecidableEq

structure ChorusState where
  rate : ℚ := 1/5
  depth : ℚ := 1/2
  delay : ℚ := 1/5
  feedback : ℚ := 1/2
  mix : ℚ := 1/2
deriving DecidableEq

structure PhaserState where
  rate : ℚ := 1/10
  depth : ℚ := 1/2
  freq : ℚ := 1/2
  feedback : ℚ := 1/2
  mix : ℚ := 1/2
deriving DecidableEq

structure CompressorState where
  threshold : ℚ := 4/5
  ratio : ℚ := 1/5
  attack : ℚ := 1/10
  release : ℚ := 1/5
deriving DecidableEq

structure LimiterState where
  threshold : ℚ := 1
  release : ℚ := 1/5
deriving DecidableEq

/-- `FilterType` enum from pedalboard.cpp. -/
inductive FilterType where
  | lowPass
  | highPass
deriving DecidableEq

/-- `FilterProcessor` (the biquad LowPass/HighPass unit). -/
structure FilterState where
  type : FilterType
  sampleRate : ℚ := 44100
  cutoff : ℚ := 1/2
  q : ℚ := 1/10
deriving DecidableEq

structure LadderState where
  cutoff : ℚ := 1/2
  resonance : ℚ := 0
  drive : ℚ := 0
deriving DecidableEq

structure BitcrushState where
  bitDepth : ℚ := 0
  downsample : ℚ := 0
deriving DecidableEq

/-! ## setParam / getParam / getNumParams, one triple per effect,
translated from the corresponding C++ member functions. -/

def GainState.setParam (s : GainState) (index : ℤ) (value : ℚ) : GainState :=
  if index = 0 then { s with gain := { gainLinear := value } } else s

def GainState.getParam (s : GainState) (index : ℤ) : ℚ :=
  if index = 0 then s.gain.gainLinear else 0

def GainState.getNumParams (_ : GainState) : ℤ := 1

/-- `ReverbProcessor::setParam` (the trailing `reverb.setParameters(params)`
call pushes `params` into the JUCE engine and does not change the stored
parameter fields). -/
def ReverbState.setParam (s : ReverbState) (index : ℤ) (value : ℚ) : ReverbState :=
  if index = 0 then { s with params.roomSize := value }
  else if index = 1 then { s with params.damping := value }
  else if index = 2 then { s with params.wetLevel := value }
  else if index = 3 then { s with params.dryLevel := value }
  else if index = 4 then { s with params.width := value }
  else s

def ReverbState.getParam (s : ReverbState) (index : ℤ) : ℚ :=
  if index = 0 then s.params.roomSize
  else if index = 1 then s.params.damping
  else if index = 2 then s.params.wetLevel
  else if index = 3 then s.params.dryLevel
  else if index = 4 then s.params.width
  else 0

def ReverbState.getNumParams (_ : ReverbState) : ℤ := 5

/-- `DelayProcessor::updateDelay`: maps `timeParam` to seconds in
`[0, 2]`, converts to samples, clamps below at 1 sample. -/
def DelayState.updateDelay (s : DelayState) : DelayState :=
  let delaySec := mapRange s.timeParam 0 2
  let delaySamples := delaySec * s.sampleRate
  { s with delaySamples := if delaySamples < 1 then 1 else delaySamples }

def DelayState.setParam (s : DelayState) (index : ℤ) (value : ℚ) : DelayState :=
  if index = 0 then ({ s with timeParam := value } : DelayState).updateDelay
  else if index = 1 then { s with feedback := value }
  else if index = 2 then { s with mix := value }
  else s

def DelayState.getParam (s : DelayState) (index : ℤ) : ℚ :=
  if index = 0 then s.timeParam
  else if index = 1 then s.feedback
  else if index = 2 then s.mix
  else 0

def DelayState.getNumParams (_ : DelayState) : ℤ := 3

/-- `DistortionProcessor::setParam` (the `update()` call reconfigures
the JUCE gain/waveshaper units, not the stored parameter). -/
def DistortionState.setParam (s : DistortionState) (index : ℤ) (value : ℚ) : DistortionState :=
  if index = 0 then { s with drive := value } else s

/-- `DistortionProcessor::getParam` returns `drive` regardless of the
index (the C++ body is `return drive;`). -/
def DistortionState.getParam (s : DistortionState) (_ : ℤ) : ℚ :=
  s.drive

def DistortionState.getNumParams (_ : DistortionState) : ℤ := 1

def ClippingState.setParam (s : ClippingState) (index : ℤ) (value : ℚ) : ClippingState :=
  if index = 0 then { s with threshold := value } else s

/-- `ClippingProcessor::getParam` returns `threshold` regardless of the
index (the C++ body is `return threshold;`). -/
def ClippingState.getParam (s : ClippingState) (_ : ℤ) : ℚ :=
  s.threshold

def ClippingState.getNumParams (_ : ClippingState) : ℤ := 1

def ChorusState.setParam (s : ChorusState) (index : ℤ) (value : ℚ) : ChorusState :=
  if index = 0 then { s with rate := value }
  else if index = 1 then { s with depth := value }
  else if index = 2 then { s with delay := value }
  else if index = 3 then { s with feedback := value }
  else if index = 4 then { s with mix := value }
  else s

def ChorusState.getParam (s : ChorusState) (index : ℤ) : ℚ :=
  if index = 0 then s.rate
  else if index = 1 then s.depth
  else if index = 2 then s.delay
  else if index = 3 then s.feedback
  else if index = 4 then s.mix
  else 0

def ChorusState.getNumParams (_ : ChorusState) : ℤ := 5

def PhaserState.setParam (s : PhaserState) (index : ℤ) (value : ℚ) : PhaserState :=
  if index = 0 then { s with rate := value }
  else if index = 1 then { s with depth := value }
  else if index = 2 then { s with freq := value }
  else if index = 3 then { s with feedback := value }
  else if index = 4 then { s with mix := value }
  else s

def PhaserState.getParam (s : PhaserState) (index : ℤ) : ℚ :=
  if index = 0 then s.rate
  else if index = 1 then s.depth
  else if index = 2 then s.freq
  else if index = 3 then s.feedback
  else if index = 4 then s.mix
  else 0

def PhaserState.getNumParams (_ : PhaserState) : ℤ := 5

def CompressorState.setParam (s : CompressorState) (index : ℤ) (value : ℚ) : CompressorState :=
  if index = 0 then { s with threshold := value }
  else if index = 1 then { s with ratio := value }
  else if index = 2 then { s with attack := value }
  else if index = 3 then { s with release := value }
  else s

def CompressorState.getParam (s : CompressorState) (index : ℤ) : ℚ :=
  if index = 0 then s.threshold
  else if index = 1 then s.ratio
  else if index = 2 then s.attack
  else if index = 3 then s.release
  else 0

def CompressorState.getNumParams (_ : CompressorState) : ℤ := 4

def LimiterState.setParam (s : LimiterState) (index : ℤ) (value : ℚ) : LimiterState :=
  if index = 0 then { s with threshold := value }
  else if index = 1 then { s with release := value }
  else s

def LimiterState.getParam (s : LimiterState) (index : ℤ) : ℚ :=
  if index = 0 then s.threshold
  else if index = 1 then s.release
  else 0

def LimiterState.getNumParams (_ : LimiterState) : ℤ := 2

def FilterState.setParam (s : FilterState) (index : ℤ) (value : ℚ) : FilterState :=
  if index = 0 then { s with cutoff := value }
  else if index = 1 then { s with q := value }
  else s

def FilterState.getParam (s : FilterState) (index : ℤ) : ℚ :=
  if index = 0 then s.cutoff
  else if index = 1 then s.q
  else 0

def FilterState.getNumParams (_ : FilterState) : ℤ := 2

def LadderState.setParam (s : LadderState) (index : ℤ) (value : ℚ) : LadderState :=
  if index = 0 then { s with cutoff := value }
  else if index = 1 then { s with resonance := value }
  else if index = 2 then { s with drive := value }
  else s

def LadderState.getParam (s : LadderState) (index : ℤ) : ℚ :=
  if index = 0 then s.cutoff
  else if index = 1 then s.resonance
  else if index = 2 then s.drive
  else 0

def LadderState.getNumParams (_ : LadderState) : ℤ := 3

def BitcrushState.setParam (s : BitcrushState) (index : ℤ) (value : ℚ) : BitcrushState :=
  if index = 0 then { s with bitDepth := value }
  else if index = 1 then { s with downsample := value }
  else s

def BitcrushState.getParam (s : BitcrushState) (index : ℤ) : ℚ :=
  if index = 0 then s.bitDepth
  else if index = 1 then s.downsample
  else 0

def BitcrushState.getNumParams (_ : BitcrushState) : ℤ := 2

/-! ## The discriminated union of built-in effects -/

/-- The backing built-in effect of a processor, one constructor per
concrete subclass of `BaseInternalProcessor`. -/
inductive EffectState where
  | gain (s : GainState)
  | reverb (s : ReverbState)
  | delay (s : DelayState)
  | distortion (s : DistortionState)
  | clipping (s : ClippingState)
  | chorus (s : ChorusState)
  | phaser (s : PhaserState)
  | compressor (s : CompressorState)
  | limiter (s : LimiterState)
  | filter (s : FilterState)
  | ladder (s : LadderState)
  | bitcrush (s : BitcrushState)
deriving DecidableEq

/-- Virtual dispatch of `setParam` over the union. -/
def EffectState.setParam : EffectState → ℤ → ℚ → EffectState
  | .gain s, i, v => .gain (s.setParam i v)
  | .reverb s, i, v => .reverb (s.setParam i v)
  | .delay s, i, v => .delay (s.setParam i v)
  | .distortion s, i, v => .distortion (s.setParam i v)
  | .clipping s, i, v => .clipping (s.setParam i v)
  | .chorus s, i, v => .chorus (s.setParam i v)
  | .phaser s, i, v => .phaser (s.setParam i v)
  | .compressor s, i, v => .compressor (s.setParam i v)
  | .limiter s, i, v => .limiter (s.setParam i v)
  | .filter s, i, v => .filter (s.setParam i v)
  | .ladder s, i, v => .ladder (s.setParam i v)
  | .bitcrush s, i, v => .bitcrush (s.setParam i v)

/-- Virtual dispatch of `getParam` over the union. -/
def EffectState.getParam : EffectState → ℤ → ℚ
  | .gain s, i => s.getParam i
  | .reverb s, i => s.getParam i
  | .delay s, i => s.getParam i
  | .distortion s, i => s.getParam i
  | .clipping s, i => s.getParam i
  | .chorus s, i => s.getParam i
  | .phaser s, i => s.getParam i
  | .compressor s, i => s.getParam i
  | .limiter s, i => s.getParam i
  | .filter s, i => s.getParam i
  | .ladder s, i => s.getParam i
  | .bitcrush s, i => s.getParam i

/-- Virtual dispatch of `getNumParams` over the union. -/
def EffectState.getNumParams : EffectState → ℤ
  | .gain s => s.getNumParams
  | .reverb s => s.getNumParams
  | .delay s => s.getNumParams
  | .distortion s => s.getNumParams
  | .clipping s => s.getNumParams
  | .chorus s => s.getNumParams
  | .phaser s => s.getNumParams
  | .compressor s => s.getNumParams
  | .limiter s => s.getNumParams
  | .filter s => s.getNumParams
  | .ladder s => s.getNumParams
  | .bitcrush s => s.getNumParams

/-! ## Factory -/

/-- `pedalboard_create_internal_processor`: exact-match dispatch over
the 13 effect-kind names; any other name yields `none` (a null
handle). -/
def pedalboard_create_internal_processor (name : String) : Option EffectState :=
  if name = "Gain" then some (.gain {})
  else if name = "Reverb" then some (.reverb {})
  else if name = "Chorus" then some (.chorus {})
  else if name = "Distortion" then some (.distortion {})
  else if name = "Clipping" then some (.clipping {})
  else if name = "Phaser" then some (.phaser {})
  else if name = "Compressor" then some (.compressor {})
  else if name = "Limiter" then some (.limiter {})
  else if name = "Delay" then some (.delay {})
  else if name = "LowPass" then some (.filter { type := .lowPass })
  else if name = "HighPass" then some (.filter { type := .highPass })
  else if name = "LadderFilter" then some (.ladder {})
  else if name = "Bitcrush" then some (.bitcrush {})
  else none

/-- The 13 built-in effect-kind names recognized by the factory. -/
def builtinNames : List String :=
  ["Gain", "Reverb", "Chorus", "Distortion", "Clipping", "Phaser",
   "Compressor", "Limiter", "Delay", "LowPass", "HighPass",
   "LadderFilter", "Bitcrush"]

/-! ## Per-effect block processing (the effects the spec's testable
properties quantify over) -/

/-- One sample of `ClippingProcessor::processBlock`:
`std::max(-thresh, std::min(thresh, x))`. -/
def clampSample (thresh x : ℚ) : ℚ :=
  max (-thresh) (min thresh x)

/-- `ClippingProcessor::processBlock`: maps the normalized threshold to
`[0.1, 1.0]` and hard-clamps every sample of every channel. -/
def ClippingState.processBlock (s : ClippingState) (buf : AudioBuf) : AudioBuf :=
  let thresh := mapRange s.threshold (1/10) 1
  buf.map (fun data => data.map (clampSample thresh))

/-- The quantization step of `BitcrushProcessor::processBlock`:
`std::floor(val / step + 0.5f) * step`, i.e. round to the nearest
multiple of `step` (ties rounded up). -/
def bitcrushQuantize (step v : ℚ) : ℚ :=
  ⌊v / step + 1/2⌋ * step

/-- The `if (depth < 32)` quantization of one retained sample in
`BitcrushProcessor::processBlock`: quantize below 32 bits, identity at
32 bits. -/
def bitcrushApply (depth : ℤ) (step v : ℚ) : ℚ :=
  if depth < 32 then bitcrushQuantize step v else v

/-- The inner per-channel loop of `BitcrushProcessor::processBlock`.
`i` is the running sample index, `lastVal` the held sample (starts at
0 for each channel).  On indices divisible by `down` the input sample
is (re)quantized and latched; every output sample is the latched
value.  `i % down` is C truncated `%`, `Int.tmod`. -/
def bitcrushChannel (depth down : ℤ) (step : ℚ) : ℚ → ℕ → List ℚ → List ℚ
  | _, _, [] => []
  | lastVal, i, x :: xs =>
    let last2 := if (i : ℤ).tmod down = 0 then bitcrushApply depth step x else lastVal
    last2 :: bitcrushChannel depth down step last2 (i + 1) xs

/-- `BitcrushProcessor::processBlock`.  The C `(int)` casts on positive
values truncate toward zero, i.e. take the floor; `1 << (depth - 1)`
is `2 ^ (depth - 1)` (for the only case where `step` is read,
`depth < 32`, the shift does not overflow). -/
def BitcrushState.processBlock (s : BitcrushState) (buf : AudioBuf) : AudioBuf :=
  let depth : ℤ := ⌊mapRange s.bitDepth 32 2⌋
  let down : ℤ := ⌊mapRange s.downsample 1 50⌋
  let step : ℚ := 1 / 2 ^ (depth - 1).toNat
  buf.map (fun data => bitcrushChannel depth down step 0 0 data)

/-- Modelled from the spec: a read of the `juce::dsp::DelayLine`
(linear interpolation) at the configured delay `d`, `hist` being the
previously pushed samples, most recent first.  With pop-before-push as
in `DelayProcessor::processBlock`, a pure integer delay of `d` samples
reads the sample pushed `d` iterations ago, which sits at position
`d - 1` of `hist`; a fractional delay interpolates linearly between
the two neighbouring positions.  An empty (cold) ring buffer reads
zeros. -/
def dlPopSample (d : ℚ) (hist : List ℚ) : ℚ :=
  let dInt := (⌊d⌋).toNat
  let frac := d - ⌊d⌋
  (1 - frac) * hist.getD (dInt - 1) 0 + frac * hist.getD dInt 0

/-- The per-channel loop body of `DelayProcessor::processBlock`: pop
the delayed sample, push `input + delayed * feedback`, output
`input * (1 - mix) + delayed * mix`.  Returns the delay-line memory
after the block together with the output samples. -/
def delayChannel (fb mix d : ℚ) (hist : List ℚ) : List ℚ → List ℚ × List ℚ
  | [] => (hist, [])
  | x :: xs =>
    let delayed := dlPopSample d hist
    let next := x + delayed * fb
    let rest := delayChannel fb mix d (next :: hist) xs
    (rest.1, (x * (1 - mix) + delayed * mix) :: rest.2)

/-- The channel loop of `DelayProcessor::processBlock`: each channel is
processed independently against its own delay-line memory. -/
def delayChannels (fb mix d : ℚ) : List (List ℚ) → List (List ℚ) → List (List ℚ) × List (List ℚ)
  | _, [] => ([], [])
  | hists, data :: rest =>
    let r := delayChannel fb mix d (hists.headD []) data
    let rs := delayChannels fb mix d (hists.tail) rest
    (r.1 :: rs.1, r.2 :: rs.2)

/-- `DelayProcessor::processBlock` over the whole buffer. -/
def DelayState.processBlock (s : DelayState) (buf : AudioBuf) : DelayState × AudioBuf :=
  let r := delayChannels s.feedback s.mix s.delaySamples s.hists buf
  ({ s with hists := r.1 }, r.2)

/-- `DelayProcessor::prepare`: records the sample rate, re-prepares
the delay line (which clears its memory) and recomputes the configured
delay via `updateDelay`. -/
def DelayState.prepare (s : DelayState) (sampleRate : ℚ) : DelayState :=
  ({ s with sampleRate := sampleRate, hists := [] } : DelayState).updateDelay

/-- `ReverbProcessor::processBlock`, parameterized by the JUCE engine's
mono and stereo transforms (`juce::Reverb::processMono` /
`processStereo` are external collaborators): a one-channel buffer goes
through the mono path, a two-channel buffer through the stereo path,
and any other channel count falls through both `if`s, leaving the
buffer untouched. -/
def reverbProcessBlock (monoFn : List ℚ → List ℚ)
    (stereoFn : List ℚ → List ℚ → List ℚ × List ℚ)
    (buf : AudioBuf) : AudioBuf :=
  if buf.length = 1 then [monoFn (buf.getD 0 [])]
  else if buf.length = 2 then
    let r := stereoFn (buf.getD 0 []) (buf.getD 1 [])
    [r.1, r.2]
  else buf

/-! ## Processor wrapper and C boundary functions -/

/-- `ProcessorWrapper` for the built-in case, together with the state
the re-preparation check consults.  Modelled from the spec: the
wrapped `juce::AudioProcessor`'s reported sample rate is "the last
spec used to prepare this processor" (0 before any preparation, the
JUCE initial value); `lastBlockSize` records the block size consumed
by the last `prepareToPlay`, for stating spec-difference properties. -/
structure WrapperState where
  effect : EffectState
  lastSampleRate : ℚ := 0
  lastBlockSize : ℤ := 0
deriving DecidableEq

/-- `pedalboard_processor_set_parameter` on the built-in path: a null
handle returns immediately, otherwise `setParam` is dispatched. -/
def pedalboard_processor_set_parameter :
    Option WrapperState → ℤ → ℚ → Option WrapperState
  | none, _, _ => none
  | some w, index, value => some { w with effect := w.effect.setParam index value }

/-- `pedalboard_processor_get_parameter` on the built-in path: a null
handle returns `0.0f`. -/
def pedalboard_processor_get_parameter : Option WrapperState → ℤ → ℚ
  | none, _ => 0
  | some w, index => w.effect.getParam index

/-- `pedalboard_processor_get_num_parameters`: a null handle returns
`0`. -/
def pedalboard_processor_get_num_parameters : Option WrapperState → ℤ
  | none => 0
  | some w => w.effect.getNumParams

/-- `pedalboard_processor_process`, parameterized by the block
transform `run` of the wrapped processor (the virtual
`processBlock`).  A null handle returns with the buffer untouched;
otherwise, if the reported sample rate differs from `sample_rate`,
`prepareToPlay` runs first (`prep` is the wrapped processor's
`prepare`, which consumes the new rate and block size).  The returned
`Bool` records whether the re-preparation branch was taken this
call. -/
def pedalboard_processor_process
    (prep : EffectState → ℚ → ℤ → EffectState)
    (run : EffectState → AudioBuf → EffectState × AudioBuf) :
    Option WrapperState → AudioBuf → ℚ → ℤ → Option WrapperState × Bool × AudioBuf
  | none, buf, _, _ => (none, false, buf)
  | some w, buf, sampleRate, numSamples =>
    let wPrepared :=
      if w.lastSampleRate ≠ sampleRate then
        ({ effect := prep w.effect sampleRate numSamples,
           lastSampleRate := sampleRate, lastBlockSize := numSamples }, true)
      else (w, false)
    let r := run wPrepared.1.effect buf
    (some { wPrepared.1 with effect := r.1 }, wPrepared.2, r.2)

/-! ## Theorems -/

/-- A map that fixes every member of a list is the identity on it. -/
theorem list_map_eq_self {α : Type} {f : α → α} {l : List α}
    (h : ∀ x ∈ l, f x = x) : l.map f = l := by
  induction l with
  | nil => rfl
  | cons x xs ih =>
    simp only [List.map_cons, List.cons.injEq]
    exact ⟨h x (List.mem_cons_self x xs), ih fun y hy => h y (List.mem_cons_of_mem x hy)⟩

/-- A clamped sample never exceeds the threshold in magnitude. -/
theorem abs_clampSample_le {t : ℚ} (x : ℚ) (ht : 0 ≤ t) : |clampSample t x| ≤ t := by
  rw [abs_le]
  exact ⟨le_max_left _ _, max_le (by linarith) (min_le_left _ _)⟩

/-- Clamping fixes samples already inside the window. -/
theorem clampSample_eq_self {t x : ℚ} (hl : -t ≤ x) (hr : x ≤ t) :
    clampSample t x = x := by
  unfold clampSample
  rw [min_eq_right hr, max_eq_right hl]

/-- C4: `pedalboard_create_internal_processor` returns a non-null
processor for each of the 13 exact effect-kind names and null for
every other name; in particular `"NotAnEffect"` yields null and
`"Gain"` yields a processor with `param_count()` 1. -/
theorem create_internal_processor_dispatch :
    (∀ n ∈ builtinNames, (pedalboard_create_internal_processor n).isSome) ∧
    (∀ s : String, s ∉ builtinNames → pedalboard_create_internal_processor s = none) ∧
    pedalboard_create_internal_processor "NotAnEffect" = none ∧
    (pedalboard_create_internal_processor "Gain").map EffectState.getNumParams = some 1 := by
  refine ⟨?_, ?_, rfl, rfl⟩
  · intro n hn
    fin_cases hn <;> rfl
  · intro s hs
    simp only [builtinNames, List.mem_cons, List.not_mem_nil, or_false, not_or] at hs
    obtain ⟨h1, h2, h3, h4, h5, h6, h7, h8, h9, h10, h11, h12, h13⟩ := hs
    simp [pedalboard_create_internal_processor,
      h1, h2, h3, h4, h5, h6, h7, h8, h9, h10, h11, h12, h13]

/-- Witness for C4: the unknown-name branch at a concrete name. -/
theorem create_internal_processor_dispatch_witness :
    pedalboard_create_internal_processor "Flanger" = none :=
  create_internal_processor_dispatch.2.1 "Flanger" (by decide)

/-- C5: `param_count()` of each of the 13 built-in effect kinds matches
the spec's per-effect table: Gain 1, Reverb 5, Delay 3, Distortion 1,
Clipping 1, Chorus 5, Phaser 5, Compressor 4, Limiter 2, LowPass 2,
HighPass 2, LadderFilter 3, Bitcrush 2. -/
theorem param_count_matches_table :
    (pedalboard_create_internal_processor "Gain").map EffectState.getNumParams = some 1 ∧
    (pedalboard_create_internal_processor "Reverb").map EffectState.getNumParams = some 5 ∧
    (pedalboard_create_internal_processor "Delay").map EffectState.getNumParams = some 3 ∧
    (pedalboard_create_internal_processor "Distortion").map EffectState.getNumParams = some 1 ∧
    (pedalboard_create_internal_processor "Clipping").map EffectState.getNumParams = some 1 ∧
    (pedalboard_create_internal_processor "Chorus").map EffectState.getNumParams = some 5 ∧
    (pedalboard_create_internal_processor "Phaser").map EffectState.getNumParams = some 5 ∧
    (pedalboard_create_internal_processor "Compressor").map EffectState.getNumParams = some 4 ∧
    (pedalboard_create_internal_processor "Limiter").map EffectState.getNumParams = some 2 ∧
    (pedalboard_create_internal_processor "LowPass").map EffectState.getNumParams = some 2 ∧
    (pedalboard_create_internal_processor "HighPass").map EffectState.getNumParams = some 2 ∧
    (pedalboard_create_internal_processor "LadderFilter").map EffectState.getNumParams = some 3 ∧
    (pedalboard_create_internal_processor "Bitcrush").map EffectState.getNumParams = some 2 :=
  ⟨rfl, rfl, rfl, rfl, rfl, rfl, rfl, rfl, rfl, rfl, rfl, rfl, rfl⟩

/-- C9: every boundary operation invoked with a null processor handle
does nothing and returns null/zero: `set_parameter` leaves all state
unchanged, `get_parameter` returns 0, `get_parameter_count` returns 0,
and `process` leaves the sample buffer unmodified. -/
theorem null_handle_operations_degrade
    (prep : EffectState → ℚ → ℤ → EffectState)
    (run : EffectState → AudioBuf → EffectState × AudioBuf)
    (i : ℤ) (v : ℚ) (buf : AudioBuf) (rate : ℚ) (n : ℤ) :
    pedalboard_processor_set_parameter none i v = none ∧
    pedalboard_processor_get_parameter none i = 0 ∧
    pedalboard_processor_get_num_parameters none = 0 ∧
    (pedalboard_processor_process prep run none buf rate n).2.2 = buf ∧
    (pedalboard_processor_process prep run none buf rate n).1 = none :=
  ⟨rfl, rfl, rfl, rfl, rfl⟩

/-- C10: `ReverbProcessor::processBlock` on a buffer whose channel
count is neither 1 nor 2 leaves every sample unchanged, whatever the
JUCE engine's mono/stereo transforms do. -/
theorem reverb_ignores_other_channel_counts
    (monoFn : List ℚ → List ℚ)
    (stereoFn : List ℚ → List ℚ → List ℚ × List ℚ)
    (buf : AudioBuf) (h1 : buf.length ≠ 1) (h2 : buf.length ≠ 2) :
    reverbProcessBlock monoFn stereoFn buf = buf := by
  simp [reverbProcessBlock, h1, h2]

/-- Witness for C10: a concrete three-channel buffer passes through
the reverb untouched. -/
theorem reverb_ignores_other_channel_counts_witness :
    reverbProcessBlock (fun c => c) (fun a b => (a, b)) [[1], [2], [3]] = [[1], [2], [3]] :=
  reverb_ignores_other_channel_counts (fun c => c) (fun a b => (a, b))
    [[1], [2], [3]] (by decide) (by decide)

/-- C1: for every built-in effect kind, every valid parameter index
and every value, `get_param(i)` immediately after `set_param(i, v)`
returns `v` (exactly, in the rational model). -/
theorem set_get_param_roundtrip (e : EffectState) (i : ℤ) (v : ℚ)
    (h0 : 0 ≤ i) (h1 : i < e.getNumParams) :
    (e.setParam i v).getParam i = v := by
  cases e with
  | gain s =>
    simp only [EffectState.getNumParams, GainState.getNumParams] at h1
    interval_cases i
    simp [EffectState.setParam, EffectState.getParam, GainState.setParam, GainState.getParam]
  | reverb s =>
    simp only [EffectState.getNumParams, ReverbState.getNumParams] at h1
    interval_cases i <;>
      simp [EffectState.setParam, EffectState.getParam, ReverbState.setParam,
        ReverbState.getParam]
  | delay s =>
    simp only [EffectState.getNumParams, DelayState.getNumParams] at h1
    interval_cases i <;>
      simp [EffectState.setParam, EffectState.getParam, DelayState.setParam,
        DelayState.getParam, DelayState.updateDelay]
  | distortion s =>
    simp only [EffectState.getNumParams, DistortionState.getNumParams] at h1
    interval_cases i
    simp [EffectState.setParam, EffectState.getParam, DistortionState.setParam,
      DistortionState.getParam]
  | clipping s =>
    simp only [EffectState.getNumParams, ClippingState.getNumParams] at h1
    interval_cases i
    simp [EffectState.setParam, EffectState.getParam, ClippingState.setParam,
      ClippingState.getParam]
  | chorus s =>
    simp only [EffectState.getNumParams, ChorusState.getNumParams] at h1
    interval_cases i <;>
      simp [EffectState.setParam, EffectState.getParam, ChorusState.setParam,
        ChorusState.getParam]
  | phaser s =>
    simp only [EffectState.getNumParams, PhaserState.getNumParams] at h1
    interval_cases i <;>
      simp [EffectState.setParam, EffectState.getParam, PhaserState.setParam,
        PhaserState.getParam]
  | compressor s =>
    simp only [EffectState.getNumParams, CompressorState.getNumParams] at h1
    interval_cases i <;>
      simp [EffectState.setParam, EffectState.getParam, CompressorState.setParam,
        CompressorState.getParam]
  | limiter s =>
    simp only [EffectState.getNumParams, LimiterState.getNumParams] at h1
    interval_cases i <;>
      simp [EffectState.setParam, EffectState.getParam, LimiterState.setParam,
        LimiterState.getParam]
  | filter s =>
    simp only [EffectState.getNumParams, FilterState.getNumParams] at h1
    interval_cases i <;>
      simp [EffectState.setParam, EffectState.getParam, FilterState.setParam,
        FilterState.getParam]
  | ladder s =>
    simp only [EffectState.getNumParams, LadderState.getNumParams] at h1
    interval_cases i <;>
      simp [EffectState.setParam, EffectState.getParam, LadderState.setParam,
        LadderState.getParam]
  | bitcrush s =>
    simp only [EffectState.getNumParams, BitcrushState.getNumParams] at h1
    interval_cases i <;>
      simp [EffectState.setParam, EffectState.getParam, BitcrushState.setParam,
        BitcrushState.getParam]

/-- Witness for C1: Reverb, parameter index 2 (wetLevel), value 3/4. -/
theorem set_get_param_roundtrip_witness :
    (EffectState.setParam (.reverb {}) 2 (3/4)).getParam 2 = 3/4 :=
  set_get_param_roundtrip (.reverb {}) 2 (3/4) (by decide) (by decide)

/-- Counterexample to C3: the Distortion effect has one parameter, so
index 1 is out of range, yet `getParam` returns the stored drive value
(default 1/2), not zero — `DistortionProcessor::getParam` is
`return drive;` regardless of the index. -/
theorem out_of_range_get_counterexample :
    EffectState.getNumParams (.distortion {}) = 1 ∧
    EffectState.getParam (.distortion {}) 1 = 1/2 ∧
    ((1 : ℚ)/2 ≠ 0) :=
  ⟨rfl, rfl, by norm_num⟩

/-- C3 (amended): for every built-in effect and every out-of-range
parameter index, `set_param` is a silent no-op; `get_param` returns
zero for every effect except Distortion and Clipping, which return
their single stored parameter value for every index. -/
theorem out_of_range_param_access (e : EffectState) (i : ℤ) (v : ℚ)
    (h : i < 0 ∨ e.getNumParams ≤ i) :
    e.setParam i v = e ∧
    e.getParam i = (match e with
      | .distortion s => s.drive
      | .clipping s => s.threshold
      | _ => 0) := by
  cases e with
  | gain s =>
    simp only [EffectState.getNumParams, GainState.getNumParams] at h
    have n0 : i ≠ 0 := by omega
    simp [EffectState.setParam, EffectState.getParam, GainState.setParam,
      GainState.getParam, n0]
  | reverb s =>
    simp only [EffectState.getNumParams, ReverbState.getNumParams] at h
    have n0 : i ≠ 0 := by omega
    have n1 : i ≠ 1 := by omega
    have n2 : i ≠ 2 := by omega
    have n3 : i ≠ 3 := by omega
    have n4 : i ≠ 4 := by omega
    simp [EffectState.setParam, EffectState.getParam, ReverbState.setParam,
      ReverbState.getParam, n0, n1, n2, n3, n4]
  | delay s =>
    simp only [EffectState.getNumParams, DelayState.getNumParams] at h
    have n0 : i ≠ 0 := by omega
    have n1 : i ≠ 1 := by omega
    have n2 : i ≠ 2 := by omega
    simp [EffectState.setParam, EffectState.getParam, DelayState.setParam,
      DelayState.getParam, n0, n1, n2]
  | distortion s =>
    simp only [EffectState.getNumParams, DistortionState.getNumParams] at h
    have n0 : i ≠ 0 := by omega
    simp [EffectState.setParam, EffectState.getParam, DistortionState.setParam,
      DistortionState.getParam, n0]
  | clipping s =>
    simp only [EffectState.getNumParams, ClippingState.getNumParams] at h
    have n0 : i ≠ 0 := by omega
    simp [EffectState.setParam, EffectState.getParam, ClippingState.setParam,
      ClippingState.getParam, n0]
  | chorus s =>
    simp only [EffectState.getNumParams, ChorusState.getNumParams] at h
    have n0 : i ≠ 0 := by omega
    have n1 : i ≠ 1 := by omega
    have n2 : i ≠ 2 := by omega
    have n3 : i ≠ 3 := by omega
    have n4 : i ≠ 4 := by omega
    simp [EffectState.setParam, EffectState.getParam, ChorusState.setParam,
      ChorusState.getParam, n0, n1, n2, n3, n4]
  | phaser s =>
    simp only [EffectState.getNumParams, PhaserState.getNumParams] at h
    have n0 : i ≠ 0 := by omega
    have n1 : i ≠ 1 := by omega
    have n2 : i ≠ 2 := by omega
    have n3 : i ≠ 3 := by omega
    have n4 : i ≠ 4 := by omega
    simp [EffectState.setParam, EffectState.getParam, PhaserState.setParam,
      PhaserState.getParam, n0, n1, n2, n3, n4]
  | compressor s =>
    simp only [EffectState.getNumParams, CompressorState.getNumParams] at h
    have n0 : i ≠ 0 := by omega
    have n1 : i ≠ 1 := by omega
    have n2 : i ≠ 2 := by omega
    have n3 : i ≠ 3 := by omega
    simp [EffectState.setParam, EffectState.getParam, CompressorState.setParam,
      CompressorState.getParam, n0, n1, n2, n3]
  | limiter s =>
    simp only [EffectState.getNumParams, LimiterState.getNumParams] at h
    have n0 : i ≠ 0 := by omega
    have n1 : i ≠ 1 := by omega
    simp [EffectState.setParam, EffectState.getParam, LimiterState.setParam,
      LimiterState.getParam, n0, n1]
  | filter s =>
    simp only [EffectState.getNumParams, FilterState.getNumParams] at h
    have n0 : i ≠ 0 := by omega
    have n1 : i ≠ 1 := by omega
    simp [EffectState.setParam, EffectState.getParam, FilterState.setParam,
      FilterState.getParam, n0, n1]
  | ladder s =>
    simp only [EffectState.getNumParams, LadderState.getNumParams] at h
    have n0 : i ≠ 0 := by omega
    have n1 : i ≠ 1 := by omega
    have n2 : i ≠ 2 := by omega
    simp [EffectState.setParam, EffectState.getParam, LadderState.setParam,
      LadderState.getParam, n0, n1, n2]
  | bitcrush s =>
    simp only [EffectState.getNumParams, BitcrushState.getNumParams] at h
    have n0 : i ≠ 0 := by omega
    have n1 : i ≠ 1 := by omega
    simp [EffectState.setParam, EffectState.getParam, BitcrushState.setParam,
      BitcrushState.getParam, n0, n1]

/-- Witness for C3 (amended): Gain at out-of-range index 5. -/
theorem out_of_range_param_access_witness :
    EffectState.setParam (.gain {}) 5 (1/4) = .gain {} ∧
    EffectState.getParam (.gain {}) 5 = 0 :=
  out_of_range_param_access (.gain {}) 5 (1/4) (by decide)

/-- Counterexample to C2: a processor last prepared at 44100 Hz with
block size 512, processed again at 44100 Hz with block size 256.  The
block size changed, so the claim demands re-preparation, but the code
only compares sample rates and does not re-prepare. -/
theorem process_block_size_change_counterexample :
    ¬ (((pedalboard_processor_process (fun e _ _ => e) (fun e b => (e, b))
          (some { effect := .gain {}, lastSampleRate := 44100, lastBlockSize := 512 })
          [[1]] 44100 256).2.1 = true ↔
        ((44100 : ℚ) ≠ 44100 ∨ (256 : ℤ) ≠ 512))) := by
  decide

/-- C2 (amended): on each `process` call the processor is re-prepared
before the block if and only if the sample rate differs from the last
prepared sample rate; a block-size-only change does not trigger
re-preparation, and when the rate is unchanged no re-preparation (and
hence no hidden internal-state reset) occurs between consecutive
process calls. -/
theorem process_reprepares_iff_rate_changed
    (prep : EffectState → ℚ → ℤ → EffectState)
    (run : EffectState → AudioBuf → EffectState × AudioBuf)
    (w : WrapperState) (buf : AudioBuf) (rate : ℚ) (n : ℤ) :
    ((pedalboard_processor_process prep run (some w) buf rate n).2.1 = true ↔
      rate ≠ w.lastSampleRate) ∧
    (rate = w.lastSampleRate →
      (pedalboard_processor_process prep run (some w) buf rate n).1 =
        some { w with effect := (run w.effect buf).1 }) := by
  constructor
  · by_cases h : w.lastSampleRate = rate
    · simp [pedalboard_processor_process, h]
    · have h' : rate ≠ w.lastSampleRate := fun hh => h hh.symm
      simp [pedalboard_processor_process, h, h']
  · intro h
    simp [pedalboard_processor_process, h]

/-- `m - m % d` is the multiple-of-`d` part of `m`. -/
theorem sub_mod_eq_mul_div (m d : ℕ) : m - m % d = d * (m / d) := by
  have h := Nat.mod_add_div m d
  omega

/-- A multiple of `d` below `m` is below the largest multiple of `d`
not exceeding `m`. -/
theorem le_sub_mod_of_mod_eq_zero {k m d : ℕ} (hk : k % d = 0) (hkm : k ≤ m) :
    k ≤ m - m % d := by
  rw [sub_mod_eq_mul_div]
  have h := Nat.mod_add_div k d
  rw [hk, Nat.zero_add] at h
  calc k = d * (k / d) := h.symm
    _ ≤ d * (m / d) := Nat.mul_le_mul_left d (Nat.div_le_div_right hkm)

/-- `m - m % d` is itself a multiple of `d`. -/
theorem mod_eq_zero_of_eq_sub_mod {k m d : ℕ} (h : k = m - m % d) : k % d = 0 := by
  rw [h, sub_mod_eq_mul_div]
  exact Nat.mul_mod_right d (m / d)

/-- Index lookup into the raw list, for `ch` within bounds, commutes
with `map`. -/
theorem getD_map_of_lt {α β : Type} (f : α → β) (l : List α) (ch : ℕ)
    (h : ch < l.length) (d1 : β) (d2 : α) :
    (l.map f).getD ch d1 = f (l.getD ch d2) := by
  rw [List.getD_eq_getElem?_getD, List.getD_eq_getElem?_getD,
    List.getElem?_map, List.getElem?_eq_getElem h]
  rfl

/-- Closed form of the bitcrush channel loop: starting at running
index `k` with held value `lastVal`, output `j` is the held value if
no multiple of `d` has been reached inside the block yet, else the
quantized input at the most recent multiple of `d`. -/
theorem bitcrushChannel_getD (depth : ℤ) (d : ℕ) (hd : 1 ≤ d) (step : ℚ)
    (l : List ℚ) :
    ∀ (k : ℕ) (lastVal : ℚ) (j : ℕ), j < l.length →
      (bitcrushChannel depth (d : ℤ) step lastVal k l).getD j 0 =
        if (k + j) - (k + j) % d < k then lastVal
        else bitcrushApply depth step (l.getD ((k + j) - (k + j) % d - k) 0) := by
  induction l with
  | nil =>
    intro k lastVal j hj
    simp at hj
  | cons x xs ih =>
    intro k lastVal j hj
    have hmod : ((k : ℤ).tmod (d : ℤ) = 0) ↔ (k % d = 0) := by
      rw [Int.tmod_eq_emod (by positivity) (by positivity)]
      omega
    have hkle := Nat.mod_le k d
    rcases j with _ | j
    · simp only [bitcrushChannel, List.getD_cons_zero, Nat.add_zero]
      by_cases hk : k % d = 0
      · rw [if_pos (hmod.mpr hk), if_neg (show ¬ (k - k % d < k) by omega)]
        have h0 : k - k % d - k = 0 := by omega
        rw [h0, List.getD_cons_zero]
      · rw [if_neg (fun hh => hk (hmod.mp hh)),
          if_pos (show k - k % d < k by omega)]
    · have hj' : j < xs.length := by simpa using hj
      have he : k + (j + 1) = k + 1 + j := by omega
      simp only [bitcrushChannel, List.getD_cons_succ]
      rw [ih (k + 1) _ j hj', he]
      by_cases hk : k % d = 0
      · rw [if_pos (hmod.mpr hk)]
        have hkr : k ≤ (k + 1 + j) - (k + 1 + j) % d :=
          le_sub_mod_of_mod_eq_zero hk (by omega)
        rw [if_neg (show ¬ ((k + 1 + j) - (k + 1 + j) % d < k) by omega)]
        by_cases hr : (k + 1 + j) - (k + 1 + j) % d < k + 1
        · rw [if_pos hr]
          have h0 : (k + 1 + j) - (k + 1 + j) % d - k = 0 := by omega
          rw [h0, List.getD_cons_zero]
        · rw [if_neg hr]
          have h1 : (k + 1 + j) - (k + 1 + j) % d - k =
              ((k + 1 + j) - (k + 1 + j) % d - (k + 1)) + 1 := by omega
          rw [h1, List.getD_cons_succ]
      · rw [if_neg (fun hh => hk (hmod.mp hh))]
        have hrk : (k + 1 + j) - (k + 1 + j) % d ≠ k :=
          fun hh => hk (mod_eq_zero_of_eq_sub_mod hh.symm)
        by_cases hr : (k + 1 + j) - (k + 1 + j) % d < k
        · rw [if_pos (show (k + 1 + j) - (k + 1 + j) % d < k + 1 by omega),
            if_pos hr]
        · rw [if_neg (show ¬ ((k + 1 + j) - (k + 1 + j) % d < k + 1) by omega),
            if_neg hr]
          have h1 : (k + 1 + j) - (k + 1 + j) % d - k =
              ((k + 1 + j) - (k + 1 + j) % d - (k + 1)) + 1 := by omega
          rw [h1, List.getD_cons_succ]

/-- C8: for the Bitcrush effect with normalized `bitDepth` and
`downsample` in `[0, 1]`, the integer depth lies in `[2, 32]`, the
decimation factor in `[1, 50]`, and output sample `i` is the
quantization (round to the nearest multiple of `1/2^(depth-1)`, ties
up, identity at depth 32) of the input sample at the most recent index
`j ≤ i` with `j % down = 0` — sample-and-hold decimation. -/
theorem bitcrush_sample_and_hold (b dn : ℚ)
    (hb0 : 0 ≤ b) (hb1 : b ≤ 1) (hd0 : 0 ≤ dn) (hd1 : dn ≤ 1)
    (buf : AudioBuf) (ch i : ℕ) (hi : i < (buf.getD ch []).length) :
    (2 ≤ ⌊mapRange b 32 2⌋ ∧ ⌊mapRange b 32 2⌋ ≤ 32) ∧
    (1 ≤ ⌊mapRange dn 1 50⌋ ∧ ⌊mapRange dn 1 50⌋ ≤ 50) ∧
    ((BitcrushState.processBlock { bitDepth := b, downsample := dn } buf).getD ch []).getD i 0 =
      bitcrushApply ⌊mapRange b 32 2⌋ (1 / 2 ^ (⌊mapRange b 32 2⌋ - 1).toNat)
        ((buf.getD ch []).getD (i - i % (⌊mapRange dn 1 50⌋).toNat) 0) := by
  have hdepth1 : (2 : ℤ) ≤ ⌊mapRange b 32 2⌋ := by
    rw [Int.le_floor]
    unfold mapRange
    push_cast
    nlinarith
  have hdepth2 : ⌊mapRange b 32 2⌋ ≤ 32 := by
    have h32 : mapRange b 32 2 ≤ (32 : ℚ) := by
      unfold mapRange
      nlinarith
    calc ⌊mapRange b 32 2⌋ ≤ ⌊(32 : ℚ)⌋ := Int.floor_le_floor h32
      _ = 32 := by norm_num
  have hdown1 : (1 : ℤ) ≤ ⌊mapRange dn 1 50⌋ := by
    rw [Int.le_floor]
    unfold mapRange
    push_cast
    nlinarith
  have hdown2 : ⌊mapRange dn 1 50⌋ ≤ 50 := by
    have h50 : mapRange dn 1 50 ≤ (50 : ℚ) := by
      unfold mapRange
      nlinarith
    calc ⌊mapRange dn 1 50⌋ ≤ ⌊(50 : ℚ)⌋ := Int.floor_le_floor h50
      _ = 50 := by norm_num
  refine ⟨⟨hdepth1, hdepth2⟩, ⟨hdown1, hdown2⟩, ?_⟩
  have hch : ch < buf.length := by
    by_contra hch
    push_neg at hch
    have hempty : buf.getD ch [] = [] := by
      rw [List.getD_eq_getElem?_getD, List.getElem?_eq_none (by omega)]
      rfl
    rw [hempty] at hi
    simp at hi
  have hdown0 : ((⌊mapRange dn 1 50⌋).toNat : ℤ) = ⌊mapRange dn 1 50⌋ :=
    Int.toNat_of_nonneg (by omega)
  have hdnat : 1 ≤ (⌊mapRange dn 1 50⌋).toNat := by omega
  simp only [BitcrushState.processBlock]
  rw [getD_map_of_lt _ buf ch hch _ []]
  rw [← hdown0]
  rw [bitcrushChannel_getD _ _ hdnat _ _ 0 0 i hi]
  rw [if_neg (show ¬ ((0 + i) - (0 + i) % (⌊mapRange dn 1 50⌋).toNat < 0) from
    Nat.not_lt_zero _)]
  simp only [Nat.zero_add, Nat.sub_zero, hdown0]

/-- Witness for C8: `bitDepth = 1` (depth 2, step 1/2),
`downsample = 1/49` (factor 2); output sample 1 holds the quantized
input sample 0, `1/3` rounded to `1/2`. -/
theorem bitcrush_sample_and_hold_witness :
    ((BitcrushState.processBlock { bitDepth := 1, downsample := 1/49 }
      [[1/3, 9/10]]).getD 0 []).getD 1 0 = 1/2 := by
  have h := (bitcrush_sample_and_hold 1 (1/49) (by norm_num) (by norm_num)
    (by norm_num) (by norm_num) [[1/3, 9/10]] 0 1 (by simp)).2.2
  rw [h]
  have hd : ⌊mapRange 1 32 2⌋ = 2 := by
    unfold mapRange
    norm_num
  have hdn : ⌊mapRange (1/49 : ℚ) 1 50⌋ = 2 := by
    unfold mapRange
    norm_num
  rw [hd, hdn, show ((2 : ℤ)).toNat = 2 from rfl]
  norm_num [bitcrushApply, bitcrushQuantize]

/-- Reading the delay line at an integer delay `n` returns the sample
pushed `n` iterations ago (position `n - 1` of the history), with no
interpolation. -/
theorem dlPopSample_natCast (n : ℕ) (hist : List ℚ) :
    dlPopSample (n : ℚ) hist = hist.getD (n - 1) 0 := by
  unfold dlPopSample
  rw [Int.floor_natCast]
  simp

/-- Closed form of the delay channel loop at feedback 0, mix 1 and an
integer delay: output `i` reads position `n - 1` of the history as it
stood when sample `i` was processed. -/
theorem delayChannel_pure_wet (n : ℕ) (xs : List ℚ) :
    ∀ (hist0 : List ℚ) (i : ℕ), i < xs.length →
      (delayChannel 0 1 (n : ℚ) hist0 xs).2.getD i 0 =
        ((xs.take i).reverse ++ hist0).getD (n - 1) 0 := by
  induction xs with
  | nil =>
    intro hist0 i hi
    simp at hi
  | cons x xs ih =>
    intro hist0 i hi
    rcases i with _ | i
    · simp only [delayChannel, List.getD_cons_zero, List.take_zero,
        List.reverse_nil, List.nil_append]
      rw [dlPopSample_natCast]
      ring
    · simp only [delayChannel, List.getD_cons_succ]
      have hx : x + dlPopSample (n : ℚ) hist0 * 0 = x := by ring
      rw [hx, ih (x :: hist0) i (by simpa using hi)]
      simp [List.take_succ_cons, List.reverse_cons, List.append_assoc]

/-- Position `n - 1` of the reversed `i`-prefix of `xs` is sample
`i - n` of `xs`, or zero if fewer than `n` samples have gone by. -/
theorem take_reverse_getD (xs : List ℚ) (n i : ℕ) (hn : 1 ≤ n)
    (hi : i < xs.length) :
    ((xs.take i).reverse).getD (n - 1) 0 =
      if i < n then 0 else xs.getD (i - n) 0 := by
  have hlen : (xs.take i).length = i := by
    rw [List.length_take]
    omega
  by_cases h : i < n
  · rw [if_pos h, List.getD_eq_getElem?_getD,
      List.getElem?_eq_none (by rw [List.length_reverse, hlen]; omega)]
    rfl
  · rw [if_neg h, List.getD_eq_getElem?_getD,
      List.getElem?_reverse (by rw [hlen]; omega)]
    rw [hlen, show i - 1 - (n - 1) = i - n by omega,
      List.getElem?_take_of_lt (by omega), ← List.getD_eq_getElem?_getD]

/-- With no prior channel memory, the channel loop processes every
channel independently from a cold delay line. -/
theorem delayChannels_nil_hists (fb mix d : ℚ) (buf : List (List ℚ)) :
    (delayChannels fb mix d [] buf).2 =
      buf.map (fun data => (delayChannel fb mix d [] data).2) := by
  induction buf with
  | nil => rfl
  | cons data rest ih =>
    simp only [delayChannels, List.headD_nil, List.tail_nil, List.map_cons]
    rw [← ih]

/-- Counterexample to C7: Delay prepared at rate 2, time parameter 1/2
(a configured delay of 2 samples), feedback set to 0, mix left at its
default 1/2.  The claim says the output is zero at every position
before the delay has elapsed, but output sample 0 is
`(1 - mix) * dry = 1/2`, because the processed output also carries the
dry component unless the mix parameter is 1. -/
theorem delay_reproduces_shifted_counterexample :
    ((((((({} : DelayState).prepare 2).setParam 0 (1/2)).setParam 1 0).processBlock
      [[1, 0, 0, 0]]).2.getD 0 []).getD 0 0 = 1/2) ∧ ((1:ℚ)/2 ≠ 0) := by
  constructor
  · norm_num [DelayState.prepare, DelayState.setParam, DelayState.updateDelay,
      DelayState.processBlock, delayChannels, delayChannel, dlPopSample, mapRange]
  · norm_num

/-- C7 (amended): for the Delay effect with feedback 0 **and mix 1**,
starting from a cold (empty) delay line, when the configured delay
(time parameter mapped to `[0, 2]` seconds times the sample rate) is a
whole number `nd ≥ 1` of samples, every output sample reproduces the
dry input delayed by exactly `nd` samples, and is zero at every output
position before the delay has elapsed. -/
theorem delay_reproduces_shifted_input (t r : ℚ) (nd : ℕ) (buf : AudioBuf)
    (ch i : ℕ) (hmap : mapRange t 0 2 * r = (nd : ℚ)) (hnd : 1 ≤ nd)
    (hi : i < (buf.getD ch []).length) :
    ((((((({} : DelayState).prepare r).setParam 0 t).setParam 1 0).setParam 2 1).processBlock
      buf).2.getD ch []).getD i 0 =
      if i < nd then 0 else (buf.getD ch []).getD (i - nd) 0 := by
  have hds : (if mapRange t 0 2 * r < 1 then (1:ℚ) else mapRange t 0 2 * r) = (nd : ℚ) := by
    have h1 : ¬ ((nd : ℚ) < 1) := not_lt.mpr (by exact_mod_cast hnd)
    rw [hmap, if_neg h1]
  have hs : (((((({} : DelayState).prepare r).setParam 0 t).setParam 1 0).setParam 2 1) =
      { timeParam := t, feedback := 0, mix := 1, sampleRate := r,
        delaySamples := (nd : ℚ), hists := [] }) := by
    norm_num [DelayState.prepare, DelayState.setParam, DelayState.updateDelay, hds]
  rw [hs]
  have hch : ch < buf.length := by
    by_contra hch
    push_neg at hch
    have hempty : buf.getD ch [] = [] := by
      rw [List.getD_eq_getElem?_getD, List.getElem?_eq_none (by omega)]
      rfl
    rw [hempty] at hi
    simp at hi
  simp only [DelayState.processBlock]
  rw [delayChannels_nil_hists, getD_map_of_lt _ buf ch hch _ []]
  rw [delayChannel_pure_wet nd (buf.getD ch []) [] i hi, List.append_nil]
  exact take_reverse_getD (buf.getD ch []) nd i hnd hi

/-- Witness for C7 (amended): rate 2, time 1/2 (delay 2 samples),
feedback 0, mix 1 on the block `[1, 0, 0, 0]`: sample 2 reproduces the
input impulse, sample 0 is still zero. -/
theorem delay_reproduces_shifted_input_witness :
    ((((((({} : DelayState).prepare 2).setParam 0 (1/2)).setParam 1 0).setParam 2 1).processBlock
      [[1, 0, 0, 0]]).2.getD 0 []).getD 2 0 = 1 := by
  have h := delay_reproduces_shifted_input (1/2) 2 2 [[1, 0, 0, 0]] 0 2
    (by norm_num [mapRange]) (by norm_num) (by norm_num)
  rw [h]
  norm_num

/-- C6: for the Clipping effect with normalized threshold `p`, every
output sample is the input clamped to `[-t, t]` with
`t = 1/10 + p * 9/10`; a block already inside `[-t, t]` is left
unchanged (in particular the `p = 1`, `t = 1` case is a no-op on
signals within `[-1, 1]`), and with `p = 0` (so `t = 1/10`) every
output sample's magnitude is at most `1/10`. -/
theorem clipping_clamps_samples (p : ℚ) (hp0 : 0 ≤ p) (hp1 : p ≤ 1) (buf : AudioBuf) :
    (ClippingState.processBlock { threshold := p } buf =
      buf.map (fun data => data.map (clampSample (1/10 + p * (9/10))))) ∧
    ((∀ data ∈ buf, ∀ x ∈ data, -(1/10 + p * (9/10)) ≤ x ∧ x ≤ 1/10 + p * (9/10)) →
      ClippingState.processBlock { threshold := p } buf = buf) ∧
    (p = 0 → ∀ data ∈ ClippingState.processBlock { threshold := p } buf, ∀ x ∈ data,
      |x| ≤ 1/10) := by
  have ht : mapRange p (1/10) 1 = 1/10 + p * (9/10) := by
    unfold mapRange
    norm_num
  refine ⟨?_, ?_, ?_⟩
  · simp only [ClippingState.processBlock, ht]
  · intro hin
    simp only [ClippingState.processBlock, ht]
    apply list_map_eq_self
    intro data hdata
    apply list_map_eq_self
    intro x hx
    exact clampSample_eq_self (hin data hdata x hx).1 (hin data hdata x hx).2
  · intro hp data hdata x hx
    subst hp
    simp only [ClippingState.processBlock, List.mem_map] at hdata
    obtain ⟨d0, _, rfl⟩ := hdata
    rw [List.mem_map] at hx
    obtain ⟨y, _, rfl⟩ := hx
    have h0 : mapRange 0 (1/10) 1 = 1/10 := by
      unfold mapRange
      norm_num
    rw [h0]
    exact abs_clampSample_le y (by norm_num)

/-- Witness for C6: threshold `p = 0`, one channel `[1, -1/4]`, both
samples clamped into `[-1/10, 1/10]`. -/
theorem clipping_clamps_samples_witness :
    ClippingState.processBlock { threshold := 0 } [[1, -1/4]] = [[1/10, -(1/10)]] := by
  have h := (clipping_clamps_samples 0 le_rfl (by norm_num) [[1, -1/4]]).1
  rw [h]
  simp only [List.map_cons, List.map_nil]
  norm_num [clampSample]

/-- Witness for C2 (amended): rate unchanged at 48000 Hz, effect state
passed through the block transform with no re-preparation. -/
theorem process_reprepares_iff_rate_changed_witness :
    (pedalboard_processor_process (fun e _ _ => e) (fun e b => (e, b))
      (some { effect := .gain {}, lastSampleRate := 48000, lastBlockSize := 512 })
      [[1]] 48000 512).1 =
      some { effect := .gain {}, lastSampleRate := 48000, lastBlockSize := 512 } :=
  (process_reprepares_iff_rate_changed (fun e _ _ => e) (fun e b => (e, b))
    { effect := .gain {}, lastSampleRate := 48000, lastBlockSize := 512 }
    [[1]] 48000 512).2 rfl

end Pedalboard
